import Mathlib

/-!
Verification development for the ADE expiration-monitor function app.

This file shallowly embeds the core logic of `function_app.py` and `slack.py`:
date-string normalization (`parse_expiration_date`), owner resolution
(`extract_owner_email`), expiration classification (`categorize_by_expiration`),
the Slack digest composer and dispatcher (`send_slack_notification`), the
per-owner notifier (`send_personal_slack_notification`), and the orchestrator's
outcome reporting (`expirationDateNotice`).

Modelling conventions:
* Python strings are `List Char` where character-level parsing matters, and
  Lean `String` where they are opaque payload text.
* `datetime` values are `PyDateTime` records (calendar fields plus an optional
  UTC-offset in seconds).  Aware datetimes compare by absolute time, which we
  compute as epoch seconds; `now` (always an aware UTC instant in the source)
  is passed as its epoch-second value.
* `datetime.fromisoformat` is modelled on the subset
  `YYYY-MM-DD[<any one separator char>HH[:MM[:SS]][+HH:MM or -HH:MM]]`,
  with calendar validity checks, following CPython's documented format
  `YYYY-MM-DD[*HH[:MM[:SS[.ffffff]]][+HH:MM[:SS[.ffffff]]]]` in which the
  date-time separator `*` may be any single character and is not inspected.
  Fractional seconds and offset seconds are outside the modelled subset.
* `datetime.strptime(s, "%Y-%m-%d")` is modelled with a 4-digit year,
  1-or-2-digit month and day (as CPython's `_strptime` regexes allow), a
  full-string match, and calendar validity checks.
* Fallible operations return `Option`; a raised-and-not-caught exception in
  classification (comparing a naive datetime with aware `now`) is modelled by
  the `StepResult.raise` outcome.
* Python's dict preserves insertion order, so tag mappings are association
  lists iterated front-to-back.
* Calling a Python function with the wrong number of positional arguments
  raises `TypeError` before the body runs; `call_send_slack_message` models
  the call protocol of `slack.send_slack_message(channel, message)`, whose
  network transport is abstracted as a `String → String → Bool` parameter.
-/

/-- `str.isdigit`-style test for a decimal digit character. -/
def isDigit (c : Char) : Bool := decide ('0' ≤ c) && decide (c ≤ '9')

/-- Numeric value of a digit character. -/
def digitVal (c : Char) : Nat := c.toNat - '0'.toNat

/-- Gregorian leap-year test, as in Python's `calendar.isleap` /
`datetime` validation. -/
def isLeap (y : Nat) : Bool := (y % 4 == 0 && y % 100 != 0) || y % 400 == 0

/-- Days in a month of the proleptic Gregorian calendar. -/
def daysInMonth (y m : Nat) : Nat :=
  if m = 2 then (if isLeap y then 29 else 28)
  else if m = 4 ∨ m = 6 ∨ m = 9 ∨ m = 11 then 30
  else 31

/-- Validity of a calendar date, as enforced by `datetime.__new__`
(`MINYEAR = 1`, `MAXYEAR = 9999`). -/
def validYMD (y m d : Nat) : Bool :=
  decide (1 ≤ y) && decide (y ≤ 9999) && decide (1 ≤ m) && decide (m ≤ 12) &&
    decide (1 ≤ d) && decide (d ≤ daysInMonth y m)

/-- Days in the months strictly before month `m` of year `y`. -/
def daysBeforeMonth (y m : Nat) : Nat :=
  (List.range (m - 1)).foldl (fun acc i => acc + daysInMonth y (i + 1)) 0

/-- Rata-die style day number of a proleptic Gregorian date (day 0 is
0001-01-01 shifted by one; only differences of this function are used). -/
def rataDie (y m d : Nat) : Int :=
  365 * ((y : Int) - 1) + ((y : Int) - 1) / 4 - ((y : Int) - 1) / 100 +
    ((y : Int) - 1) / 400 + (daysBeforeMonth y m : Int) + ((d : Int) - 1)

/-- Days since the Unix epoch 1970-01-01 of a calendar date. -/
def epochDays (y m d : Nat) : Int := rataDie y m d - rataDie 1970 1 1

/-- Model of a Python `datetime`: calendar fields plus the UTC offset of its
`tzinfo` in seconds (`none` for a naive datetime). -/
structure PyDateTime where
  year : Nat
  month : Nat
  day : Nat
  hour : Nat
  minute : Nat
  second : Nat
  tz : Option Int
deriving DecidableEq

/-- Wall-clock value of a `PyDateTime` as seconds since the epoch, ignoring
its timezone. -/
def naiveSec (d : PyDateTime) : Int :=
  epochDays d.year d.month d.day * 86400 +
    (d.hour : Int) * 3600 + (d.minute : Int) * 60 + (d.second : Int)

/-- Absolute (UTC) epoch seconds of an aware `PyDateTime` with offset `off`.
Python compares and subtracts aware datetimes by this value. -/
def absSec (d : PyDateTime) (off : Int) : Int := naiveSec d - off

/-- The `YYYY-MM-DD` date part at the front of an isoformat string: four
digits, `-`, two digits, `-`, two digits, then the (unconsumed) remainder.
Fails on a malformed or calendar-invalid date, as `fromisoformat` does. -/
def parseDate : List Char → Option (Nat × Nat × Nat × List Char)
  | c1 :: c2 :: c3 :: c4 :: '-' :: c5 :: c6 :: '-' :: c7 :: c8 :: rest =>
    if isDigit c1 && isDigit c2 && isDigit c3 && isDigit c4 &&
        isDigit c5 && isDigit c6 && isDigit c7 && isDigit c8 then
      let y := ((digitVal c1 * 10 + digitVal c2) * 10 + digitVal c3) * 10 + digitVal c4
      let m := digitVal c5 * 10 + digitVal c6
      let d := digitVal c7 * 10 + digitVal c8
      if validYMD y m d then some (y, m, d, rest) else none
    else none
  | _ => none

/-- The time-of-day part of an isoformat string: `HH`, `HH:MM` or `HH:MM:SS`,
consuming the whole input. -/
def parseHMS : List Char → Option (Nat × Nat × Nat)
  | [a, b] =>
    if isDigit a && isDigit b then
      let hh := digitVal a * 10 + digitVal b
      if hh ≤ 23 then some (hh, 0, 0) else none
    else none
  | [a, b, ':', c, d] =>
    if isDigit a && isDigit b && isDigit c && isDigit d then
      let hh := digitVal a * 10 + digitVal b
      let mm := digitVal c * 10 + digitVal d
      if hh ≤ 23 && mm ≤ 59 then some (hh, mm, 0) else none
    else none
  | [a, b, ':', c, d, ':', e, f] =>
    if isDigit a && isDigit b && isDigit c && isDigit d && isDigit e && isDigit f then
      let hh := digitVal a * 10 + digitVal b
      let mm := digitVal c * 10 + digitVal d
      let ss := digitVal e * 10 + digitVal f
      if hh ≤ 23 && mm ≤ 59 && ss ≤ 59 then some (hh, mm, ss) else none
    else none
  | _ => none

/-- A UTC-offset suffix `±HH:MM` of an isoformat string, as seconds. -/
def parseOffset : List Char → Option Int
  | [s, a, b, ':', c, d] =>
    if (s == '+' || s == '-') && isDigit a && isDigit b && isDigit c && isDigit d then
      let hh := digitVal a * 10 + digitVal b
      let mm := digitVal c * 10 + digitVal d
      if hh ≤ 23 && mm ≤ 59 then
        let v : Int := (hh : Int) * 3600 + (mm : Int) * 60
        some (if s == '-' then -v else v)
      else none
    else none
  | _ => none

/-- Characters that do not start the timezone part of an isoformat time
string (the source's time strings carry offsets introduced by `+` or `-`). -/
def notSign (c : Char) : Bool := !(c == '+' || c == '-')

/-- Model of `datetime.fromisoformat` on the subset described in the header:
a date, optionally followed by one arbitrary separator character, a time of
day, and an optional `±HH:MM` offset. -/
def fromisoformat (l : List Char) : Option PyDateTime :=
  match parseDate l with
  | none => none
  | some (y, m, d, rest) =>
    match rest with
    | [] => some ⟨y, m, d, 0, 0, 0, none⟩
    | _sep :: tr =>
      let tstr := tr.takeWhile notSign
      let ostr := tr.dropWhile notSign
      match parseHMS tstr with
      | none => none
      | some (hh, mi, ss) =>
        match ostr with
        | [] => some ⟨y, m, d, hh, mi, ss, none⟩
        | _ =>
          match parseOffset ostr with
          | none => none
          | some off => some ⟨y, m, d, hh, mi, ss, some off⟩

/-- Python `expiration_str.replace('Z', '+00:00')`: every `Z` is replaced by
the six characters `+00:00`. -/
def replaceZ : List Char → List Char
  | [] => []
  | c :: cs => (if c = 'Z' then ['+', '0', '0', ':', '0', '0'] else [c]) ++ replaceZ cs

/-- Python `expiration_str.endswith('Z')`. -/
def endsWithZ (s : List Char) : Bool := s.getLast? == some 'Z'

/-- One or two leading digits (as matched by CPython `_strptime`'s `%m` and
`%d` regexes against a following literal separator or end of input). -/
def parse1or2 : List Char → Option (Nat × List Char)
  | [] => none
  | [a] => if isDigit a then some (digitVal a, []) else none
  | a :: b :: rest =>
    if isDigit a then
      if isDigit b then some (digitVal a * 10 + digitVal b, rest)
      else some (digitVal a, b :: rest)
    else none

/-- Model of `datetime.strptime(s, "%Y-%m-%d")`: 4-digit year, dash,
1-2 digit month, dash, 1-2 digit day, end of string, calendar-valid. -/
def strptimeYmd : List Char → Option (Nat × Nat × Nat)
  | c1 :: c2 :: c3 :: c4 :: '-' :: rest =>
    if isDigit c1 && isDigit c2 && isDigit c3 && isDigit c4 then
      let y := ((digitVal c1 * 10 + digitVal c2) * 10 + digitVal c3) * 10 + digitVal c4
      match parse1or2 rest with
      | some (m, '-' :: rest2) =>
        (match parse1or2 rest2 with
         | some (d, []) => if validYMD y m d then some (y, m, d) else none
         | _ => none)
      | _ => none
    else none
  | _ => none

/-- `function_app.parse_expiration_date`: normalize an optional expiration
string to a datetime.  `None`/empty input and every parse failure yield
`none`; the three branches mirror the source (ends-with-`Z` substitution,
`'T' in s` full datetime with UTC default, and date-only `strptime`). -/
def parse_expiration_date : Option (List Char) → Option PyDateTime
  | none => none
  | some s =>
    if s = [] then none
    else if endsWithZ s then fromisoformat (replaceZ s)
    else if s.contains 'T' then
      match fromisoformat s with
      | none => none
      | some dt => some (if dt.tz = none then { dt with tz := some 0 } else dt)
    else
      match strptimeYmd s with
      | none => none
      | some (y, m, d) => some ⟨y, m, d, 0, 0, 0, some 0⟩

/-- A raw `expirationDate` value in an environment dict: either an
already-structured datetime (the SDK fallback path) or a string (the REST
path). -/
inductive ExpirationValue where
  | dt (d : PyDateTime)
  | str (s : List Char)
deriving DecidableEq

/-- Python truthiness of an `expirationDate` value: the empty string is
falsy, every datetime and non-empty string is truthy. -/
def expFalsy : ExpirationValue → Bool
  | .str [] => true
  | _ => false

/-- An environment record as assembled by `fetch_all_environments`: the
dict keys become optional fields, and the resource-group tag mapping is an
insertion-ordered association list. -/
structure Env where
  name : Option String
  project_name : Option String
  catalogName : Option String
  environmentDefinitionName : Option String
  user : Option String
  provisioningState : Option String
  resourceGroupId : Option String
  expirationDate : Option ExpirationValue
  environment_resource_group : Option String
  tags : List (String × String)
deriving DecidableEq

/-- ASCII lowercasing of one character (the relevant fragment of Python's
`str.lower` for the tag keys at hand). -/
def asciiLower (c : Char) : Char :=
  if decide ('A' ≤ c) && decide (c ≤ 'Z') then Char.ofNat (c.toNat + 32) else c

/-- Python `key.lower()` (ASCII fragment). -/
def pyLower (s : String) : String := ⟨s.data.map asciiLower⟩

/-- The tag keys recognized by `extract_owner_email`, in the order they are
written in the source's membership tuple. -/
def owner_tag_keys : List String :=
  ["created_by", "createdby", "created-by", "owner", "user-email"]

/-- `function_app.extract_owner_email`: scan the tag mapping in iteration
(insertion) order and return the value of the first entry whose lowercased
key is one of `owner_tag_keys`; otherwise fall back to the truthy `user`
field; otherwise `none`. -/
def extract_owner_email (env : Env) : Option String :=
  match env.tags.find? (fun kv => owner_tag_keys.contains (pyLower kv.1)) with
  | some kv => some kv.2
  | none =>
    match env.user with
    | some u => if u = "" then none else some u
    | none => none

/-- The five expiration categories. -/
inductive Category where
  | expired
  | tomorrow
  | three_days
  | seven_days
  | future
deriving DecidableEq

/-- The `env_info` dict built by `categorize_by_expiration` for each
categorized environment. -/
structure CatRecord where
  name : Option String
  owner_email : String
  expirationDate : String
  daysUntilExpiration : Int
  projectName : Option String
  environmentResourceGroup : Option String
  environmentDefinition : Option String
  catalogName : Option String
  provisioningState : Option String
  resourceId : Option String
deriving DecidableEq

/-- Zero-padded 2-digit decimal rendering. -/
def pad2 (n : Nat) : String := if n < 10 then "0" ++ toString n else toString n

/-- Zero-padded 4-digit decimal rendering. -/
def pad4 (n : Nat) : String :=
  if n < 10 then "000" ++ toString n
  else if n < 100 then "00" ++ toString n
  else if n < 1000 then "0" ++ toString n
  else toString n

/-- Rendering of a UTC offset as `datetime.isoformat` prints it
(empty for a naive value). -/
def offsetIso : Option Int → String
  | none => ""
  | some off =>
    let sign := if off < 0 then "-" else "+"
    let a := off.natAbs
    sign ++ pad2 (a / 3600) ++ ":" ++ pad2 (a % 3600 / 60)

/-- Model of `datetime.isoformat()` for whole-second values. -/
def pyIsoformat (d : PyDateTime) : String :=
  pad4 d.year ++ "-" ++ pad2 d.month ++ "-" ++ pad2 d.day ++ "T" ++
    pad2 d.hour ++ ":" ++ pad2 d.minute ++ ":" ++ pad2 d.second ++ offsetIso d.tz

/-- The expiration datetime `categorize_by_expiration` works with for an
environment: the raw value if truthy and already a datetime, the parse of
the raw string otherwise, `none` whenever the record is skipped. -/
def envParsedExpiration (env : Env) : Option PyDateTime :=
  match env.expirationDate with
  | none => none
  | some v =>
    if expFalsy v then none
    else
      match v with
      | .dt d => some d
      | .str s => parse_expiration_date (some s)

/-- The absolute epoch-second value of an environment's expiration, when the
record parses to an aware datetime. -/
def envAbs (env : Env) : Option Int :=
  (envParsedExpiration env).bind fun d => d.tz.map fun off => absSec d off

/-- Outcome of the per-environment loop body of `categorize_by_expiration`:
skip (`continue`), raise (a naive datetime reaches the aware comparison and
Python throws `TypeError`), or keep with a category and an `env_info`. -/
inductive StepResult where
  | skip
  | raise
  | keep (c : Category) (r : CatRecord)
deriving DecidableEq

/-- One iteration of the `categorize_by_expiration` loop over environment
`env` with current time `now` (epoch seconds): resolve the expiration and
owner, build `env_info`, and pick the first matching category in the order
expired, tomorrow, 3_days, 7_days, future. -/
def processEnv (now : Int) (env : Env) : StepResult :=
  match envParsedExpiration env with
  | none => .skip
  | some d =>
    match d.tz with
    | none => .raise
    | some off =>
      let e := absSec d off
      let days := Int.fdiv (e - now) 86400
      let owner_email :=
        match extract_owner_email env with
        | none => "unknown"
        | some v => if v = "" then "unknown" else v
      let r : CatRecord :=
        { name := env.name
          owner_email := owner_email
          expirationDate := pyIsoformat d
          daysUntilExpiration := days
          projectName := env.project_name
          environmentResourceGroup := env.environment_resource_group
          environmentDefinition := env.environmentDefinitionName
          catalogName := env.catalogName
          provisioningState := env.provisioningState
          resourceId := env.resourceGroupId }
      if e < now then .keep .expired r
      else if e ≤ now + 86400 then .keep .tomorrow r
      else if e ≤ now + 3 * 86400 then .keep .three_days r
      else if e ≤ now + 7 * 86400 then .keep .seven_days r
      else .keep .future r

/-- The category map: all five categories always present, in the insertion
order of the source's `categories` dict. -/
structure CategoryMap where
  expired : List CatRecord
  tomorrow : List CatRecord
  three_days : List CatRecord
  seven_days : List CatRecord
  future : List CatRecord
deriving DecidableEq

/-- The initial empty category map. -/
def emptyCategoryMap : CategoryMap := ⟨[], [], [], [], []⟩

/-- `categories[cat].append(env_info)`. -/
def CategoryMap.append1 (m : CategoryMap) : Category → CatRecord → CategoryMap
  | .expired, r => { m with expired := m.expired ++ [r] }
  | .tomorrow, r => { m with tomorrow := m.tomorrow ++ [r] }
  | .three_days, r => { m with three_days := m.three_days ++ [r] }
  | .seven_days, r => { m with seven_days := m.seven_days ++ [r] }
  | .future, r => { m with future := m.future ++ [r] }

/-- The loop of `categorize_by_expiration`; `none` when an uncaught
`TypeError` aborts it. -/
def categorize_go (now : Int) : List Env → CategoryMap → Option CategoryMap
  | [], acc => some acc
  | env :: rest, acc =>
    match processEnv now env with
    | .raise => none
    | .skip => categorize_go now rest acc
    | .keep c r => categorize_go now rest (acc.append1 c r)

/-- `function_app.categorize_by_expiration` with `now` (the single
`datetime.now(timezone.utc)` sample) given as epoch seconds. -/
def categorize_by_expiration (envs : List Env) (now : Int) : Option CategoryMap :=
  categorize_go now envs emptyCategoryMap

/-- The attention total computed by `check_expiring_environments`. -/
def total_attention (m : CategoryMap) : Nat :=
  m.expired.length + m.tomorrow.length + m.three_days.length + m.seven_days.length

/-- Number of records across all five categories. -/
def numRecords (m : CategoryMap) : Nat :=
  m.expired.length + m.tomorrow.length + m.three_days.length +
    m.seven_days.length + m.future.length

/-- Python f-string rendering of an optional string (as `None` when absent). -/
def optStr : Option String → String
  | some s => s
  | none => "None"

/-- A Slack Block Kit block as built by the source: a plain-text header, a
section (plain text or mrkdwn), a divider, or a context line. -/
inductive Block where
  | header (text : String)
  | sectionPlain (text : String)
  | sectionMrkdwn (text : String)
  | divider
  | context (text : String)
deriving DecidableEq

/-- The text carried by a block (empty for a divider). -/
def blockText : Block → String
  | .header t => t
  | .sectionPlain t => t
  | .sectionMrkdwn t => t
  | .divider => ""
  | .context t => t

/-- Digest entry for an expired environment. -/
def expiredEntry (r : CatRecord) : Block :=
  .sectionMrkdwn ("• `" ++ optStr r.name ++ "`\n  Owner: " ++ r.owner_email ++
    "\n  Expired: " ++ toString r.daysUntilExpiration.natAbs ++ " day(s) ago")

/-- Digest entry for an environment expiring tomorrow. -/
def tomorrowEntry (r : CatRecord) : Block :=
  .sectionMrkdwn ("• `" ++ optStr r.name ++ "`\n  Owner: " ++ r.owner_email ++
    "\n  Expires: " ++ r.expirationDate.take 10)

/-- Digest entry for the 3-day and 7-day sections. -/
def daysLeftEntry (r : CatRecord) : Block :=
  .sectionMrkdwn ("• `" ++ optStr r.name ++ "`\n  Owner: " ++ r.owner_email ++
    "\n  Days left: " ++ toString r.daysUntilExpiration)

/-- The expired section of the digest (`if expired_count > 0`): a count
header then the first five expired entries. -/
def expiredSection (m : CategoryMap) : List Block :=
  if 0 < m.expired.length then
    Block.sectionMrkdwn ("*❌ EXPIRED (" ++ toString m.expired.length ++ ")*") ::
      (m.expired.take 5).map expiredEntry
  else []

/-- The tomorrow section of the digest: divider, count header, first five
entries. -/
def tomorrowSection (m : CategoryMap) : List Block :=
  if 0 < m.tomorrow.length then
    Block.divider ::
      Block.sectionMrkdwn ("*🚨 TOMORROW (" ++ toString m.tomorrow.length ++ ")*") ::
      (m.tomorrow.take 5).map tomorrowEntry
  else []

/-- The 3-day section of the digest: divider, count header, first three
entries. -/
def threeDaysSection (m : CategoryMap) : List Block :=
  if 0 < m.three_days.length then
    Block.divider ::
      Block.sectionMrkdwn ("*⚠️ 3 DAYS (" ++ toString m.three_days.length ++ ")*") ::
      (m.three_days.take 3).map daysLeftEntry
  else []

/-- The 7-day section of the digest: divider, count header, first three
entries. -/
def sevenDaysSection (m : CategoryMap) : List Block :=
  if 0 < m.seven_days.length then
    Block.divider ::
      Block.sectionMrkdwn ("*⏰ 7 DAYS (" ++ toString m.seven_days.length ++ ")*") ::
      (m.seven_days.take 3).map daysLeftEntry
  else []

/-- The `blocks` list built by `send_slack_notification` for a nonzero
attention count; `ts` is the footer timestamp string produced by
`datetime.now(timezone.utc).strftime(...)`. -/
def digestBlocks (m : CategoryMap) (total_count : Nat) (ts : String) : List Block :=
  [Block.header ((if 0 < m.expired.length then "🚨" else "⚠️") ++
     " ADE Expiration Alert"),
   Block.sectionMrkdwn ("*Summary:* " ++ toString total_count ++
     " environment(s) need attention\n\n❌ " ++ toString m.expired.length ++
     " already expired\n🚨 " ++ toString m.tomorrow.length ++
     " expire tomorrow\n⚠️ " ++ toString m.three_days.length ++
     " expire in 3 days\n⏰ " ++ toString m.seven_days.length ++ " expire in 7 days"),
   Block.divider]
  ++ expiredSection m ++ tomorrowSection m ++ threeDaysSection m ++ sevenDaysSection m
  ++ [Block.divider,
      Block.context ("🤖 _ADE Expiration Monitor | " ++ ts ++ "_")]

/-- The payload `send_slack_notification` assembles: the "all healthy"
section when the attention total is zero, the digest blocks otherwise. -/
def slackPayload (m : CategoryMap) (total_count : Nat) (ts : String) : List Block :=
  if total_count = 0 then
    [Block.sectionPlain
      "✅ All Azure Deployment Environments are healthy - no expiration warnings."]
  else digestBlocks m total_count ts

/-- A Python value passed positionally to `slack.send_slack_message`. -/
inductive PyValue where
  | str (s : String)
  | blocks (l : List Block)
deriving DecidableEq

/-- A Python exception relevant to the modelled calls. -/
inductive PyErr where
  | typeError
deriving DecidableEq

/-- The call protocol of `slack.send_slack_message(channel, message)`: the
function has exactly two positional parameters, so binding any other shape
of argument list raises `TypeError` before the body runs.  The body's HTTP
transport is abstracted by `transport`. -/
def call_send_slack_message (transport : String → String → Bool) :
    List PyValue → Except PyErr Bool
  | [PyValue.str channel, PyValue.str message] => .ok (transport channel message)
  | _ => .error .typeError

/-- `function_app.send_slack_notification`: `False` without a configured
channel, `True` in mock mode, and otherwise the result of the guarded
three-argument call `send_slack_message(channel_id, "", payload)` — `True`
on a non-raising call regardless of its boolean, `False` when the call
raises. -/
def send_slack_notification (transport : String → String → Bool)
    (channel_id : Option String) (mock_mode : Bool)
    (m : CategoryMap) (total_count : Nat) (ts : String) : Bool :=
  match channel_id with
  | none => false
  | some c =>
    if c = "" then false
    else
      let payload := slackPayload m total_count ts
      if mock_mode then true
      else
        match call_send_slack_message transport
            [PyValue.str c, PyValue.str "", PyValue.blocks payload] with
        | .ok _sent => true
        | .error _ => false

/-- Python `"unknown" in owner_email`, i.e. substring containment. -/
def hasInfix : List Char → List Char → Bool
  | [], pat => pat.isEmpty
  | c :: t, pat => pat.isPrefixOf (c :: t) || hasInfix t pat

/-- Substring test on strings (Python's `in` operator). -/
def strContains (s pat : String) : Bool := hasInfix s.data pat.data

/-- The skip condition of `send_personal_slack_notification`:
`if not owner_email or "unknown" in owner_email`. -/
def personal_skip : Option String → Bool
  | none => true
  | some s => if s = "" then true else strContains s "unknown"

/-- The per-owner message text built by `send_personal_slack_notification`. -/
def personalMessage (r : CatRecord) : String :=
  "Hello! Your Azure Deployment Environment *" ++ optStr r.name ++
    "* is set to expire on *" ++ r.expirationDate.take 10 ++ "* (in *" ++
    toString r.daysUntilExpiration ++
    "* days).\nPlease take necessary action to extend or decommission it.\n\nProject: " ++
    optStr r.projectName ++ "\nResource Group: " ++ optStr r.environmentResourceGroup ++
    "\nEnvironment Definition: " ++ optStr r.environmentDefinition ++
    "\nCatalog: " ++ optStr r.catalogName ++
    "\nProvisioning State: " ++ optStr r.provisioningState ++
    "\nResource ID: " ++ optStr r.resourceId

/-- The `(user_id, message)` pairs handed to `send_slack_message` for the
records of one category, in list order: a record is skipped when
`personal_skip` fires on its owner or the Slack user lookup fails. -/
def personalAttempts (getUser : String → Option String) :
    List CatRecord → List (String × String)
  | [] => []
  | r :: rest =>
    (if personal_skip (some r.owner_email) then []
     else
       match getUser r.owner_email with
       | none => []
       | some uid => [(uid, personalMessage r)]) ++ personalAttempts getUser rest

/-- All per-owner messages dispatched by
`send_personal_slack_notification`'s `for category in env` loop, which
iterates the category dict in insertion order — expired, tomorrow, 3_days,
7_days, and then `future` as well. -/
def send_personal_messages (getUser : String → Option String)
    (m : CategoryMap) : List (String × String) :=
  personalAttempts getUser m.expired ++ personalAttempts getUser m.tomorrow ++
    personalAttempts getUser m.three_days ++ personalAttempts getUser m.seven_days ++
    personalAttempts getUser m.future

/-- The value `send_personal_slack_notification` returns to its caller: the
function is annotated `-> bool` but no path executes a `return`, so Python
returns `None` (modelled as `none`). -/
def send_personal_slack_notification (_getUser : String → Option String)
    (_m : CategoryMap) : Option Bool :=
  none

/-- Python truthiness of an optional boolean (`None` is falsy). -/
def pyTruthy : Option Bool → Bool
  | none => false
  | some b => b

/-- Outcome reported by the orchestrator for a run. -/
inductive RunStatus where
  | succeeded
  | completed_with_warnings
deriving DecidableEq

/-- The reporting logic of `expirationDateNotice` after a successful fetch
and classification: "Monitor completed successfully" exactly when
`success_personal and success_channel` is truthy, else "Monitor completed
with warnings". -/
def expirationDateNotice_report (transport : String → String → Bool)
    (getUser : String → Option String) (channel_id : Option String)
    (mock_mode : Bool) (m : CategoryMap) (ts : String) : RunStatus :=
  let total_count := total_attention m
  let success_personal := send_personal_slack_notification getUser m
  let success_channel := send_slack_notification transport channel_id mock_mode m total_count ts
  if pyTruthy success_personal && success_channel then .succeeded
  else .completed_with_warnings

/-! ### General lemmas about the embedded primitives -/

theorem string_append_data (a b : String) : (a ++ b).data = a.data ++ b.data := rfl

theorem hasInfix_iff (l pat : List Char) : hasInfix l pat = true ↔ pat <:+: l := by
  induction l with
  | nil => simp [hasInfix, List.isEmpty_iff]
  | cons c t ih =>
    simp [hasInfix, List.infix_cons_iff, ih, List.isPrefixOf_iff_prefix]

theorem find?_first {α : Type} (p : α → Bool) :
    ∀ (pre : List α) (kv : α) (post : List α),
      (∀ x ∈ pre, p x = false) → p kv = true →
      (pre ++ kv :: post).find? p = some kv := by
  intro pre
  induction pre with
  | nil =>
    intro kv post _ hkv
    simp [List.find?, hkv]
  | cons hd tl ih =>
    intro kv post hpre hkv
    have h1 : p hd = false := hpre hd (by simp)
    simp only [List.cons_append, List.find?, h1]
    exact ih kv post (fun x hx => hpre x (by simp [hx])) hkv

/-! ### Fixtures used by concrete evaluations -/

/-- A blank environment record with every optional field absent. -/
def blankEnv : Env :=
  { name := none, project_name := none, catalogName := none,
    environmentDefinitionName := none, user := none, provisioningState := none,
    resourceGroupId := none, expirationDate := none,
    environment_resource_group := none, tags := [] }

/-- Tag mapping with `Owner` inserted before `created_by`. -/
def tagEnvOwnerFirst : Env :=
  { blankEnv with tags := [("Owner", "a@x.com"), ("created_by", "b@x.com")] }

/-- A categorized record sitting in the `future` category with a plainly
resolvable owner address. -/
def recFuture : CatRecord :=
  { name := some "env-future", owner_email := "alice@x.com",
    expirationDate := "2024-06-01T00:00:00+00:00", daysUntilExpiration := 120,
    projectName := some "proj", environmentResourceGroup := some "rg",
    environmentDefinition := some "webapp", catalogName := some "cat",
    provisioningState := some "Succeeded", resourceId := some "/subs/x/rg" }

/-- A category map whose only record is in `future`. -/
def futureOnlyMap : CategoryMap :=
  { expired := [], tomorrow := [], three_days := [], seven_days := [],
    future := [recFuture] }

/-- An expired record addressed to owner number `nm`. -/
def mkExpiredRec (nm owner : String) : CatRecord :=
  { name := some nm, owner_email := owner,
    expirationDate := "2024-01-05T00:00:00+00:00", daysUntilExpiration := -1,
    projectName := some "proj", environmentResourceGroup := some "rg",
    environmentDefinition := some "webapp", catalogName := some "cat",
    provisioningState := some "Succeeded", resourceId := some "/subs/x/rg" }

/-- A category map with three expired records owned by three distinct
resolvable owners. -/
def threeOwnerMap : CategoryMap :=
  { expired := [mkExpiredRec "e1" "o1@x.com", mkExpiredRec "e2" "o2@x.com",
                mkExpiredRec "e3" "o3@x.com"],
    tomorrow := [], three_days := [], seven_days := [], future := [] }

/-! ### Claim theorems -/

/-- C10: a per-owner notification is skipped exactly when the record's
`owner_email` is absent, empty, or contains `"unknown"` as a substring
anywhere — not only when it equals the `"unknown"` sentinel; in particular
the genuine address `munknown@example.com` is skipped. -/
theorem c10_skip_condition :
    (∀ o : Option String, personal_skip o = true ↔
      (o = none ∨ o = some "" ∨ ∃ s, o = some s ∧ "unknown".data <:+: s.data)) ∧
    personal_skip (some "munknown@example.com") = true ∧
    ("munknown@example.com" : String) ≠ "unknown" := by
  refine ⟨?_, by decide, by decide⟩
  intro o
  cases o with
  | none => simp [personal_skip]
  | some s =>
    by_cases hs : s = ""
    · subst hs; simp [personal_skip]
    · simp only [personal_skip, if_neg hs, strContains, hasInfix_iff]
      simp [hs]

/-- C9: with a configured monitoring channel and mock mode off, digest
dispatch always returns `False`: the three-argument call to the
two-parameter `slack.send_slack_message` raises `TypeError`, which the
`except` clause turns into `False`, for every category map and total. -/
theorem c9_digest_dispatch_false :
    ∀ (transport : String → String → Bool) (c : String) (m : CategoryMap)
      (total_count : Nat) (ts : String), c ≠ "" →
      send_slack_notification transport (some c) false m total_count ts = false := by
  intro transport c m total_count ts hc
  simp [send_slack_notification, hc, call_send_slack_message]

/-- Witness for C9 at a concrete configuration. -/
theorem c9_digest_dispatch_false_witness :
    send_slack_notification (fun _ _ => true) (some "C123") false
      emptyCategoryMap 0 "" = false :=
  c9_digest_dispatch_false (fun _ _ => true) "C123" emptyCategoryMap 0 "" (by decide)

/-- C4: contrary to the claim, `send_personal_slack_notification` iterates
every key of the category dict — `future` included — so a `future` record
with a resolvable owner does produce a per-owner message. -/
theorem c4_future_record_notified :
    send_personal_messages (fun _ => some "U001") futureOnlyMap =
      [("U001", personalMessage recFuture)] := by
  rfl

/-- C5: contrary to the claim, the run is never reported as succeeded:
`send_personal_slack_notification` falls off its end and returns `None`
(despite its `-> bool` annotation), so `success_personal and success_channel`
is always falsy and every fetch-successful run logs "Monitor completed with
warnings" — even when every dispatch succeeded.  Independently, each
per-owner attempt is produced regardless of other sends' outcomes: three
resolvable owners yield three attempts. -/
theorem c5_report_always_warnings :
    (∀ (transport : String → String → Bool) (getUser : String → Option String)
      (channel_id : Option String) (mock_mode : Bool) (m : CategoryMap) (ts : String),
      expirationDateNotice_report transport getUser channel_id mock_mode m ts =
        RunStatus.completed_with_warnings) ∧
    (send_personal_messages (fun e => some e) threeOwnerMap).length = 3 := by
  refine ⟨?_, by rfl⟩
  intro transport getUser channel_id mock_mode m ts
  simp [expirationDateNotice_report, send_personal_slack_notification, pyTruthy]

/-- Counterexample for C2: with tags `{"Owner": "a@x.com",
"created_by": "b@x.com"}` (insertion order as written), the resolver
returns `a@x.com`, not the claimed `b@x.com`: the source tests membership of
each key in iteration order rather than scanning the priority list. -/
theorem c2_priority_counterexample :
    extract_owner_email tagEnvOwnerFirst = some "a@x.com" ∧
    extract_owner_email tagEnvOwnerFirst ≠ some "b@x.com" := by
  decide

/-- C2 (amended): owner resolution returns the value of the first entry in
the mapping's iteration (insertion) order whose lowercased key is one of
`created_by`, `createdby`, `created-by`, `owner`, `user-email`. -/
theorem c2_first_match_wins :
    ∀ (env : Env) (pre post : List (String × String)) (k v : String),
      env.tags = pre ++ (k, v) :: post →
      (∀ kv ∈ pre, owner_tag_keys.contains (pyLower kv.1) = false) →
      owner_tag_keys.contains (pyLower k) = true →
      extract_owner_email env = some v := by
  intro env pre post k v htags hpre hk
  unfold extract_owner_email
  rw [htags, find?_first (fun kv => owner_tag_keys.contains (pyLower kv.1)) pre (k, v) post hpre hk]

/-- Witness for C2's amended statement on the counterexample tags. -/
theorem c2_first_match_wins_witness :
    extract_owner_email tagEnvOwnerFirst = some "a@x.com" :=
  c2_first_match_wins tagEnvOwnerFirst [] [("created_by", "b@x.com")] "Owner" "a@x.com"
    rfl (by simp) (by decide)


/-- Environment A of the spec scenario: expires `2024-01-08T00:00:00Z`
(epoch second 1704672000). -/
def envJan08 : Env :=
  { blankEnv with
      name := some "A", project_name := some "proj",
      user := some "alice@x.com",
      expirationDate := some (.str "2024-01-08T00:00:00Z".toList) }

/-- The `env_info` built for `envJan08` when `now = 2024-01-10T00:00:00Z`
(epoch second 1704844800). -/
def recJan08 : CatRecord :=
  { name := some "A", owner_email := "alice@x.com",
    expirationDate := "2024-01-08T00:00:00+00:00", daysUntilExpiration := -2,
    projectName := some "proj", environmentResourceGroup := none,
    environmentDefinition := none, catalogName := none,
    provisioningState := none, resourceId := none }

/-- The `env_info` built for `envJan08` when `now` equals its expiration
instant exactly. -/
def recJan08AtNow : CatRecord := { recJan08 with daysUntilExpiration := 0 }

/-- An environment expiring six hours before `now = 2024-01-10T00:00:00Z`. -/
def envSixHours : Env :=
  { blankEnv with
      name := some "B", user := some "bob@x.com",
      expirationDate := some (.str "2024-01-09T18:00:00Z".toList) }

/-- The `env_info` built for `envSixHours` at `now = 2024-01-10T00:00:00Z`. -/
def recSixHours : CatRecord :=
  { name := some "B", owner_email := "bob@x.com",
    expirationDate := "2024-01-09T18:00:00+00:00", daysUntilExpiration := -1,
    projectName := none, environmentResourceGroup := none,
    environmentDefinition := none, catalogName := none,
    provisioningState := none, resourceId := none }

/-- An environment with no expiration value at all. -/
def envNoExp : Env := { blankEnv with name := some "D" }

/-- An environment whose expiration string does not parse. -/
def envGarbage : Env :=
  { blankEnv with
      name := some "G",
      expirationDate := some (.str "garbage".toList) }

/-- A kept record in the `expired` category always has a strictly negative
day count: the first branch of the chain fires only when the expiration is
strictly before `now`. -/
theorem processEnv_expired_days (now : Int) (env : Env) (r : CatRecord)
    (h : processEnv now env = .keep .expired r) : r.daysUntilExpiration < 0 := by
  unfold processEnv at h
  cases hd : envParsedExpiration env with
  | none => simp [hd] at h
  | some d =>
    simp only [hd] at h
    cases ht : d.tz with
    | none => simp [ht] at h
    | some off =>
      simp only [ht] at h
      split_ifs at h with h1 h2 h3 h4 <;> simp only [StepResult.keep.injEq] at h
      · obtain ⟨-, rfl⟩ := h
        exact Int.fdiv_neg' (by omega) (by omega)
      all_goals exact absurd h.1 (by simp)

/-- C1: the classifier picks the first matching category in the strict
order expired, tomorrow, 3_days, 7_days, future, with thresholds
`now + 1/3/7` days; expiration strictly before `now` is the only way into
`expired`, an expiration equal to `now` lands in `tomorrow`, and every
record the full categorizer places in `expired` has a negative day count
(equivalently, its expiration is before `now`). -/
theorem c1_classifier_boundaries :
    (∀ (env : Env) (now e : Int) (c : Category) (r : CatRecord),
        envAbs env = some e → processEnv now env = .keep c r →
        ((c = Category.expired ↔ e < now) ∧
         (c = Category.tomorrow ↔ (now ≤ e ∧ e ≤ now + 86400)) ∧
         (c = Category.three_days ↔ (now + 86400 < e ∧ e ≤ now + 3 * 86400)) ∧
         (c = Category.seven_days ↔ (now + 3 * 86400 < e ∧ e ≤ now + 7 * 86400)) ∧
         (c = Category.future ↔ now + 7 * 86400 < e) ∧
         (e = now → c = Category.tomorrow))) ∧
    (∀ (envs : List Env) (now : Int) (m : CategoryMap),
        categorize_by_expiration envs now = some m →
        ∀ r ∈ m.expired, r.daysUntilExpiration < 0) := by
  constructor
  · intro env now e c r habs hp
    unfold envAbs at habs
    unfold processEnv at hp
    cases hd : envParsedExpiration env with
    | none => simp [hd] at habs
    | some d =>
      simp only [hd] at habs hp
      cases ht : d.tz with
      | none => simp [ht, Option.some_bind] at habs
      | some off =>
        simp only [ht, Option.some_bind, Option.map_some', Option.some.injEq] at habs
        subst habs
        simp only [ht] at hp
        split_ifs at hp with h1 h2 h3 h4 <;>
          simp only [StepResult.keep.injEq] at hp <;>
          obtain ⟨rfl, rfl⟩ := hp <;>
          refine ⟨?_, ?_, ?_, ?_, ?_, ?_⟩ <;>
          simp <;> omega
  · have go : ∀ (envs : List Env) (now : Int) (acc m : CategoryMap),
        categorize_go now envs acc = some m →
        (∀ r ∈ acc.expired, r.daysUntilExpiration < 0) →
        ∀ r ∈ m.expired, r.daysUntilExpiration < 0 := by
      intro envs
      induction envs with
      | nil =>
        intro now acc m h hacc
        unfold categorize_go at h
        simp only [Option.some.injEq] at h
        exact h ▸ hacc
      | cons env rest ih =>
        intro now acc m h hacc
        unfold categorize_go at h
        cases hs : processEnv now env with
        | raise => simp [hs] at h
        | skip =>
          simp only [hs] at h
          exact ih now acc m h hacc
        | keep c r =>
          simp only [hs] at h
          refine ih now _ m h ?_
          intro r' hr'
          cases c with
          | expired =>
            simp only [CategoryMap.append1, List.mem_append, List.mem_singleton] at hr'
            rcases hr' with hr' | rfl
            · exact hacc r' hr'
            · exact processEnv_expired_days now env r' hs
          | tomorrow => exact hacc r' hr'
          | three_days => exact hacc r' hr'
          | seven_days => exact hacc r' hr'
          | future => exact hacc r' hr'
    intro envs now m h
    exact go envs now emptyCategoryMap m h (by simp [emptyCategoryMap])

/-- Witness for C1 applied to an environment expiring exactly at `now`
(category `tomorrow`, not `expired`). -/
theorem c1_classifier_boundaries_witness :
    (Category.tomorrow = Category.expired ↔ (1704672000 : Int) < 1704672000) ∧
    (Category.tomorrow = Category.tomorrow ↔
      ((1704672000 : Int) ≤ 1704672000 ∧ (1704672000 : Int) ≤ 1704672000 + 86400)) ∧
    (Category.tomorrow = Category.three_days ↔
      ((1704672000 : Int) + 86400 < 1704672000 ∧ (1704672000 : Int) ≤ 1704672000 + 3 * 86400)) ∧
    (Category.tomorrow = Category.seven_days ↔
      ((1704672000 : Int) + 3 * 86400 < 1704672000 ∧ (1704672000 : Int) ≤ 1704672000 + 7 * 86400)) ∧
    (Category.tomorrow = Category.future ↔ (1704672000 : Int) + 7 * 86400 < 1704672000) ∧
    ((1704672000 : Int) = 1704672000 → Category.tomorrow = Category.tomorrow) :=
  c1_classifier_boundaries.1 envJan08 1704672000 1704672000 Category.tomorrow
    recJan08AtNow (by decide) (by decide)

/-- C8: `days_until_expiration` is the floor of `(expiration - now)` in
whole days (Python `timedelta.days` semantics); the spec scenario record
expiring `2024-01-08T00:00:00Z` with `now = 2024-01-10T00:00:00Z` gets
exactly `-2`, and a record expiring six hours before `now` gets `-1`,
not zero. -/
theorem c8_days_truncation :
    (∀ (env : Env) (now e : Int) (c : Category) (r : CatRecord),
        envAbs env = some e → processEnv now env = .keep c r →
        r.daysUntilExpiration = Int.fdiv (e - now) 86400) ∧
    (processEnv 1704844800 envJan08 = .keep .expired recJan08 ∧
      recJan08.daysUntilExpiration = -2) ∧
    (processEnv 1704844800 envSixHours = .keep .expired recSixHours ∧
      recSixHours.daysUntilExpiration = -1 ∧ recSixHours.daysUntilExpiration ≠ 0) := by
  refine ⟨?_, ⟨by decide, by decide⟩, ⟨by decide, by decide, by decide⟩⟩
  intro env now e c r habs hp
  unfold envAbs at habs
  unfold processEnv at hp
  cases hd : envParsedExpiration env with
  | none => simp [hd] at habs
  | some d =>
    simp only [hd] at habs hp
    cases ht : d.tz with
    | none => simp [ht, Option.some_bind] at habs
    | some off =>
      simp only [ht, Option.some_bind, Option.map_some', Option.some.injEq] at habs
      subst habs
      simp only [ht] at hp
      split_ifs at hp <;>
        simp only [StepResult.keep.injEq] at hp <;>
        obtain ⟨rfl, rfl⟩ := hp <;> rfl

/-- Witness for C8's universal part on the spec scenario record. -/
theorem c8_days_truncation_witness :
    recJan08.daysUntilExpiration = Int.fdiv (1704672000 - 1704844800) 86400 :=
  c8_days_truncation.1 envJan08 1704844800 1704672000 Category.expired recJan08
    (by decide) (by decide)

/-- `processEnv` skips exactly the records whose expiration is absent or
fails to parse. -/
theorem processEnv_skip_iff (now : Int) (env : Env) :
    processEnv now env = .skip ↔ envParsedExpiration env = none := by
  unfold processEnv
  cases hd : envParsedExpiration env with
  | none => simp
  | some d =>
    simp only [hd]
    cases ht : d.tz with
    | none => simp
    | some off =>
      simp only
      split_ifs <;> simp

/-- Counting lemma for the classifier loop: the finished map holds one
record per surviving (parseable) environment. -/
theorem categorize_go_count (now : Int) :
    ∀ (envs : List Env) (acc m : CategoryMap),
      categorize_go now envs acc = some m →
      numRecords m = numRecords acc +
        (envs.filter (fun env => (envParsedExpiration env).isSome)).length := by
  intro envs
  induction envs with
  | nil =>
    intro acc m h
    unfold categorize_go at h
    simp only [Option.some.injEq] at h
    simp [← h]
  | cons env rest ih =>
    intro acc m h
    unfold categorize_go at h
    cases hs : processEnv now env with
    | raise => simp [hs] at h
    | skip =>
      simp only [hs] at h
      have hnone : envParsedExpiration env = none := (processEnv_skip_iff now env).mp hs
      have := ih acc m h
      simp [List.filter, hnone, this]
    | keep c r =>
      simp only [hs] at h
      have hsome : (envParsedExpiration env).isSome = true := by
        cases hd : envParsedExpiration env with
        | none =>
          exfalso
          have hskip : processEnv now env = .skip := (processEnv_skip_iff now env).mpr hd
          rw [hskip] at hs
          exact absurd hs (by simp)
        | some d => rfl
      have hcount : numRecords (acc.append1 c r) = numRecords acc + 1 := by
        cases c <;> simp [CategoryMap.append1, numRecords] <;> omega
      have := ih (acc.append1 c r) m h
      simp only [List.filter, hsome, List.length_cons, this, hcount]
      omega

/-- C6: normalization is total and absorbs failure — `None`, the empty
string, and malformed strings all come back as `none` rather than raising —
and classification drops exactly the records whose expiration is absent or
unparseable: the five categories together hold one record per parseable
environment, so a dropped record appears in none of them. -/
theorem c6_unparseable_dropped :
    (parse_expiration_date none = none) ∧
    (parse_expiration_date (some "".toList) = none) ∧
    (parse_expiration_date (some "garbage".toList) = none) ∧
    (parse_expiration_date (some "2024-13-01".toList) = none) ∧
    (∀ (envs : List Env) (now : Int) (m : CategoryMap),
        categorize_by_expiration envs now = some m →
        numRecords m =
          (envs.filter (fun env => (envParsedExpiration env).isSome)).length) := by
  refine ⟨rfl, by decide, by decide, by decide, ?_⟩
  intro envs now m h
  have := categorize_go_count now envs emptyCategoryMap m h
  simpa [numRecords, emptyCategoryMap] using this

/-- Witness for C6's counting statement: a no-expiration record and an
unparseable record yield an empty category map. -/
theorem c6_unparseable_dropped_witness :
    numRecords emptyCategoryMap =
      ([envNoExp, envGarbage].filter
        (fun env => (envParsedExpiration env).isSome)).length :=
  c6_unparseable_dropped.2.2.2.2 [envNoExp, envGarbage] 0 emptyCategoryMap (by decide)

/-- A digest block that lists one environment: the mrkdwn sections whose
text is a bullet line.  Every per-environment entry text starts with the
bullet; no header, summary, section-header, divider or context block does. -/
def isEntryBlock : Block → Bool
  | .sectionMrkdwn t => t.data.head? == some '•'
  | _ => false

theorem data_head?_append (a b : String) (c : Char) (h : a.data.head? = some c) :
    (a ++ b).data.head? = some c := by
  rw [string_append_data]
  cases ha : a.data with
  | nil => rw [ha] at h; exact absurd h (by simp)
  | cons x t =>
    rw [ha] at h
    simpa using h

theorem isEntryBlock_not_bullet (t : String) (c : Char) (h : t.data.head? = some c)
    (hc : (c == '•') = false) : isEntryBlock (.sectionMrkdwn t) = false := by
  simp only [isEntryBlock, h]
  simpa using hc

theorem isEntryBlock_append_bullet (a b : String)
    (h : isEntryBlock (Block.sectionMrkdwn a) = true) :
    isEntryBlock (Block.sectionMrkdwn (a ++ b)) = true := by
  simp only [isEntryBlock] at h ⊢
  have h' : a.data.head? = some '•' := by simpa using h
  rw [data_head?_append a b '•' h']
  rfl

theorem isEntryBlock_expiredEntry (r : CatRecord) :
    isEntryBlock (expiredEntry r) = true := by
  unfold expiredEntry
  repeat apply isEntryBlock_append_bullet
  decide

theorem isEntryBlock_tomorrowEntry (r : CatRecord) :
    isEntryBlock (tomorrowEntry r) = true := by
  unfold tomorrowEntry
  repeat apply isEntryBlock_append_bullet
  decide

theorem isEntryBlock_daysLeftEntry (r : CatRecord) :
    isEntryBlock (daysLeftEntry r) = true := by
  unfold daysLeftEntry
  repeat apply isEntryBlock_append_bullet
  decide

theorem countP_entry_map (f : CatRecord → Block)
    (hf : ∀ r, isEntryBlock (f r) = true) (l : List CatRecord) :
    (l.map f).countP isEntryBlock = l.length := by
  induction l with
  | nil => rfl
  | cons a t ih => simp [List.countP_cons, hf, ih]

theorem countP_expiredSection (m : CategoryMap) :
    (expiredSection m).countP isEntryBlock = min 5 m.expired.length := by
  unfold expiredSection
  by_cases h : 0 < m.expired.length
  · rw [if_pos h, List.countP_cons,
      countP_entry_map expiredEntry isEntryBlock_expiredEntry, List.length_take,
      isEntryBlock_not_bullet _ '*']
    · simp
    · repeat apply data_head?_append
      decide
    · decide
  · rw [if_neg h]
    have h0 : m.expired.length = 0 := by omega
    simp [h0]

theorem countP_tomorrowSection (m : CategoryMap) :
    (tomorrowSection m).countP isEntryBlock = min 5 m.tomorrow.length := by
  unfold tomorrowSection
  by_cases h : 0 < m.tomorrow.length
  · rw [if_pos h, List.countP_cons, List.countP_cons,
      countP_entry_map tomorrowEntry isEntryBlock_tomorrowEntry, List.length_take,
      isEntryBlock_not_bullet _ '*']
    · simp [isEntryBlock]
    · repeat apply data_head?_append
      decide
    · decide
  · rw [if_neg h]
    have h0 : m.tomorrow.length = 0 := by omega
    simp [h0]

theorem countP_threeDaysSection (m : CategoryMap) :
    (threeDaysSection m).countP isEntryBlock = min 3 m.three_days.length := by
  unfold threeDaysSection
  by_cases h : 0 < m.three_days.length
  · rw [if_pos h, List.countP_cons, List.countP_cons,
      countP_entry_map daysLeftEntry isEntryBlock_daysLeftEntry, List.length_take,
      isEntryBlock_not_bullet _ '*']
    · simp [isEntryBlock]
    · repeat apply data_head?_append
      decide
    · decide
  · rw [if_neg h]
    have h0 : m.three_days.length = 0 := by omega
    simp [h0]

theorem countP_sevenDaysSection (m : CategoryMap) :
    (sevenDaysSection m).countP isEntryBlock = min 3 m.seven_days.length := by
  unfold sevenDaysSection
  by_cases h : 0 < m.seven_days.length
  · rw [if_pos h, List.countP_cons, List.countP_cons,
      countP_entry_map daysLeftEntry isEntryBlock_daysLeftEntry, List.length_take,
      isEntryBlock_not_bullet _ '*']
    · simp [isEntryBlock]
    · repeat apply data_head?_append
      decide
    · decide
  · rw [if_neg h]
    have h0 : m.seven_days.length = 0 := by omega
    simp [h0]

/-- A digest category map with seven expired records and nothing else. -/
def m7 : CategoryMap :=
  { expired := [mkExpiredRec "e1" "team@x.com", mkExpiredRec "e2" "team@x.com",
                mkExpiredRec "e3" "team@x.com", mkExpiredRec "e4" "team@x.com",
                mkExpiredRec "e5" "team@x.com", mkExpiredRec "e6" "team@x.com",
                mkExpiredRec "e7" "team@x.com"],
    tomorrow := [], three_days := [], seven_days := [], future := [] }

/-- Counterexample for C3: with seven expired records the digest lists five
entries, but no block of the payload carries the claimed "2 more"
omitted-entries note — the composer emits no such note at all. -/
theorem c3_no_omission_note_counterexample :
    ((slackPayload m7 7 "2024-01-10 09:00 UTC").all
        (fun b => !(strContains (blockText b) "2 more"))) = true ∧
    (slackPayload m7 7 "2024-01-10 09:00 UTC").countP isEntryBlock = 5 := by
  constructor <;> decide

/-- C3 (amended): for a nonzero attention count the digest lists at most 5
entries for each of `expired`/`tomorrow` and at most 3 for each of
`3_days`/`7_days` (exactly `min bound count` entry blocks in total, so a
category over its bound has exactly the bound listed), and a non-empty
expired category's section header carries the category's full count; no
omitted-entries note is emitted. -/
theorem c3_digest_bounds :
    ∀ (m : CategoryMap) (total_count : Nat) (ts : String), total_count ≠ 0 →
      ((slackPayload m total_count ts).countP isEntryBlock =
        min 5 m.expired.length + min 5 m.tomorrow.length +
          min 3 m.three_days.length + min 3 m.seven_days.length) ∧
      (m.expired ≠ [] →
        Block.sectionMrkdwn ("*❌ EXPIRED (" ++ toString m.expired.length ++ ")*") ∈
          slackPayload m total_count ts) := by
  intro m total_count ts htc
  constructor
  · rw [slackPayload, if_neg htc, digestBlocks]
    rw [List.countP_append, List.countP_append, List.countP_append,
      List.countP_append, List.countP_append,
      countP_expiredSection, countP_tomorrowSection, countP_threeDaysSection,
      countP_sevenDaysSection]
    rw [List.countP_cons, List.countP_cons, List.countP_cons, List.countP_nil,
      List.countP_cons, List.countP_cons, List.countP_nil,
      isEntryBlock_not_bullet _ '*']
    · simp only [isEntryBlock]
      simp
    · repeat apply data_head?_append
      decide
    · decide
  · intro hne
    have h0 : 0 < m.expired.length := List.length_pos.mpr hne
    rw [slackPayload, if_neg htc, digestBlocks, expiredSection, if_pos h0]
    simp [List.mem_append]
    tauto

/-- Witness for C3's amended statement on the seven-expired map. -/
theorem c3_digest_bounds_witness :
    (slackPayload m7 7 "2024-01-10 09:05 UTC").countP isEntryBlock =
      min 5 m7.expired.length + min 5 m7.tomorrow.length +
        min 3 m7.three_days.length + min 3 m7.seven_days.length :=
  (c3_digest_bounds m7 7 "2024-01-10 09:05 UTC" (by decide)).1

theorem parseDate_suffix (l : List Char) (y m d : Nat) (rest : List Char)
    (h : parseDate l = some (y, m, d, rest)) : rest <:+ l := by
  unfold parseDate at h
  split at h
  · next c1 c2 c3 c4 c5 c6 c7 c8 rest' =>
    split at h
    · simp only [Option.ite_none_right_eq_some, Option.some.injEq, Prod.mk.injEq] at h
      obtain ⟨-, -, -, -, rfl⟩ := h
      exact ⟨[c1, c2, c3, c4, '-', c5, c6, '-', c7, c8], rfl⟩
    · simp at h
  · simp at h

theorem parseOffset_length (o : List Char) (v : Int)
    (h : parseOffset o = some v) : o.length = 6 := by
  unfold parseOffset at h
  split at h
  · next s a b c d => rfl
  · simp at h

theorem replaceZ_append (a b : List Char) :
    replaceZ (a ++ b) = replaceZ a ++ replaceZ b := by
  induction a with
  | nil => rfl
  | cons c t ih => simp [replaceZ, ih]

theorem endsWithZ_concat (s : List Char) (h : endsWithZ s = true) :
    ∃ a, s = a ++ ['Z'] := by
  rcases List.eq_nil_or_concat s with rfl | ⟨L, b, rfl⟩
  · simp [endsWithZ] at h
  · rw [List.concat_eq_append] at *
    unfold endsWithZ at h
    rw [List.getLast?_concat] at h
    simp only [beq_iff_eq, Option.some.injEq] at h
    subst h
    exact ⟨L, rfl⟩

theorem suffix_len_le {l l₁ l₂ : List Char} (h1 : l₁ <:+ l) (h2 : l₂ <:+ l)
    (hle : l₁.length ≤ l₂.length) : l₁ <:+ l₂ := by
  obtain ⟨t, rfl⟩ := h2
  have h1' := List.suffix_iff_eq_drop.mp h1
  rw [List.suffix_iff_eq_drop, h1', List.length_append]
  have harith : t.length + l₂.length - l₁.length =
      t.length + (l₂.length - l₁.length) := by omega
  rw [harith, ← List.drop_drop, List.drop_left, List.length_drop]
  congr 1
  omega

theorem suffix_len_eq {l l₁ l₂ : List Char} (h1 : l₁ <:+ l) (h2 : l₂ <:+ l)
    (h : l₁.length = l₂.length) : l₁ = l₂ := by
  rw [List.suffix_iff_eq_drop] at h1 h2
  rw [h1, h2, h]

theorem fromiso_plus00_suffix (l : List Char) (dt : PyDateTime)
    (hsuf : ['+', '0', '0', ':', '0', '0'] <:+ l)
    (h : fromisoformat l = some dt) :
    dt.tz = some 0 ∨ (dt.tz = none ∧ dt.hour = 0 ∧ dt.minute = 0 ∧ dt.second = 0) := by
  unfold fromisoformat at h
  cases hpd : parseDate l with
  | none => simp [hpd] at h
  | some q =>
    obtain ⟨y, m, d, rest⟩ := q
    simp only [hpd] at h
    have hrs : rest <:+ l := parseDate_suffix l y m d rest hpd
    cases rest with
    | nil =>
      simp only [Option.some.injEq] at h
      subst h
      exact Or.inr ⟨rfl, rfl, rfl, rfl⟩
    | cons sep tr =>
      have htr_l : tr <:+ l := (List.suffix_cons sep tr).trans hrs
      cases hms : parseHMS (tr.takeWhile notSign) with
      | none => simp [hms] at h
      | some t3 =>
        obtain ⟨hh, mi, ss⟩ := t3
        simp only [hms] at h
        cases hos : tr.dropWhile notSign with
        | nil =>
          simp only [hos, Option.some.injEq] at h
          subst h
          refine Or.inr ⟨rfl, ?_⟩
          have htw : tr.takeWhile notSign = tr := by
            conv_rhs => rw [← List.takeWhile_append_dropWhile (p := notSign) (l := tr)]
            rw [hos, List.append_nil]
          rw [htw] at hms
          by_cases h6 : 6 ≤ tr.length
          · exfalso
            have hp6tr : ['+', '0', '0', ':', '0', '0'] <:+ tr :=
              suffix_len_le hsuf htr_l (by simpa using h6)
            have hplus : '+' ∈ tr := hp6tr.subset (by decide)
            have hns := List.dropWhile_eq_nil_iff.mp hos '+' hplus
            simp [notSign] at hns
          · have hle : (sep :: tr).length ≤ ((['+', '0', '0', ':', '0', '0'] : List Char)).length := by
              simp
              omega
            have hst : (sep :: tr) <:+ ['+', '0', '0', ':', '0', '0'] :=
              suffix_len_le hrs hsuf hle
            simp only [List.suffix_cons_iff, List.suffix_nil] at hst
            rcases hst with hcons | hcons | hcons | hcons | hcons | hcons | hcons
            · rw [List.cons.injEq] at hcons
              obtain ⟨-, rfl⟩ := hcons
              rw [show parseHMS ['0', '0', ':', '0', '0'] = some (0, 0, 0) from by decide] at hms
              simp only [Option.some.injEq, Prod.mk.injEq] at hms
              obtain ⟨rfl, rfl, rfl⟩ := hms
              exact ⟨rfl, rfl, rfl⟩
            · rw [List.cons.injEq] at hcons
              obtain ⟨-, rfl⟩ := hcons
              rw [show parseHMS ['0', ':', '0', '0'] = none from by decide] at hms
              simp at hms
            · rw [List.cons.injEq] at hcons
              obtain ⟨-, rfl⟩ := hcons
              rw [show parseHMS [':', '0', '0'] = none from by decide] at hms
              simp at hms
            · rw [List.cons.injEq] at hcons
              obtain ⟨-, rfl⟩ := hcons
              rw [show parseHMS ['0', '0'] = some (0, 0, 0) from by decide] at hms
              simp only [Option.some.injEq, Prod.mk.injEq] at hms
              obtain ⟨rfl, rfl, rfl⟩ := hms
              exact ⟨rfl, rfl, rfl⟩
            · rw [List.cons.injEq] at hcons
              obtain ⟨-, rfl⟩ := hcons
              rw [show parseHMS ['0'] = none from by decide] at hms
              simp at hms
            · rw [List.cons.injEq] at hcons
              obtain ⟨-, rfl⟩ := hcons
              rw [show parseHMS ([] : List Char) = none from by decide] at hms
              simp at hms
            · exact absurd hcons (by simp)
        | cons o1 orest =>
          simp only [hos] at h
          cases hpo : parseOffset (o1 :: orest) with
          | none => simp [hpo] at h
          | some off =>
            simp only [hpo, Option.some.injEq] at h
            subst h
            left
            have hsub : (o1 :: orest) <:+ l := by
              have hdw : tr.dropWhile notSign <:+ tr := List.dropWhile_suffix notSign
              rw [hos] at hdw
              exact hdw.trans htr_l
            have hlen : (o1 :: orest).length = 6 := parseOffset_length _ _ hpo
            have heq : (o1 :: orest) = ['+', '0', '0', ':', '0', '0'] :=
              suffix_len_eq hsub hsuf (by rw [hlen]; rfl)
            rw [heq] at hpo
            rw [show parseOffset ['+', '0', '0', ':', '0', '0'] = some 0 from by decide] at hpo
            simp only [Option.some.injEq] at hpo
            subst hpo
            rfl

/-- C7: over the modelled `fromisoformat` subset, (substitution) a string
ending in `Z` is parsed by substituting `+00:00` for the `Z`; (Z-branch)
when such a parse succeeds the result is either an aware zero-offset (UTC)
date-time, or — when the substituted offset is itself consumed as the
date-time separator plus the time of day, as for a bare date followed by
`Z` — a naive midnight value with no timezone, so the claimed "always UTC"
fails; (T-branch) a string containing `T` parses via `fromisoformat` and a
missing timezone is replaced by UTC, so the result is always aware;
(date-only branch) a string with neither `Z` nor `T` parses as a calendar
date anchored to midnight UTC. -/
theorem c7_normalizer_branches :
    (∀ s : List Char, endsWithZ s = true →
        parse_expiration_date (some s) = fromisoformat (replaceZ s)) ∧
    (∀ (s : List Char) (dt : PyDateTime), endsWithZ s = true →
        parse_expiration_date (some s) = some dt →
        dt.tz = some 0 ∨ (dt.tz = none ∧ dt.hour = 0 ∧ dt.minute = 0 ∧ dt.second = 0)) ∧
    (∀ (s : List Char) (dt : PyDateTime), endsWithZ s = false → s.contains 'T' = true →
        parse_expiration_date (some s) = some dt →
        (∃ d0, fromisoformat s = some d0 ∧
          dt = (if d0.tz = none then { d0 with tz := some 0 } else d0)) ∧
        dt.tz ≠ none) ∧
    (∀ (s : List Char) (dt : PyDateTime), endsWithZ s = false → s.contains 'T' = false →
        parse_expiration_date (some s) = some dt →
        dt.hour = 0 ∧ dt.minute = 0 ∧ dt.second = 0 ∧ dt.tz = some 0) := by
  have hZsub : ∀ s : List Char, endsWithZ s = true →
      parse_expiration_date (some s) = fromisoformat (replaceZ s) := by
    intro s hz
    have hs : s ≠ [] := by
      intro hnil
      subst hnil
      simp [endsWithZ] at hz
    simp [parse_expiration_date, hs, hz]
  refine ⟨hZsub, ?_, ?_, ?_⟩
  · intro s dt hz hp
    obtain ⟨a, rfl⟩ := endsWithZ_concat s hz
    rw [hZsub _ hz] at hp
    have hsuf : ['+', '0', '0', ':', '0', '0'] <:+ replaceZ (a ++ ['Z']) := by
      rw [replaceZ_append]
      exact ⟨replaceZ a, by simp [replaceZ]⟩
    exact fromiso_plus00_suffix _ dt hsuf hp
  · intro s dt hz ht hp
    have hs : s ≠ [] := by
      rintro rfl
      simp at ht
    simp only [parse_expiration_date, if_neg hs, hz, ht, Bool.false_eq_true,
      if_false, if_true] at hp
    cases hfi : fromisoformat s with
    | none => simp [hfi] at hp
    | some d0 =>
      simp only [hfi, Option.some.injEq] at hp
      subst hp
      refine ⟨⟨d0, rfl, rfl⟩, ?_⟩
      by_cases hd0 : d0.tz = none
      · simp [hd0]
      · simp only [if_neg hd0]
        exact hd0
  · intro s dt hz ht hp
    by_cases hs : s = []
    · subst hs
      simp [parse_expiration_date] at hp
    · simp only [parse_expiration_date, if_neg hs, hz, ht, Bool.false_eq_true,
        if_false] at hp
      cases hst : strptimeYmd s with
      | none => simp [hst] at hp
      | some q =>
        obtain ⟨y, m, d⟩ := q
        simp only [hst, Option.some.injEq] at hp
        subst hp
        exact ⟨rfl, rfl, rfl, rfl⟩

/-- Counterexample for C7: `"2024-01-01Z"` ends in `Z`, yet after the
`+00:00` substitution the `+` is consumed as the date-time separator and
`00:00` as the time, yielding a naive (no-timezone) midnight datetime, not
a UTC-aware one — mirroring CPython, where
`datetime.fromisoformat("2024-01-01+00:00")` is naive because the character
at the separator position is not inspected. -/
theorem c7_z_naive_counterexample :
    parse_expiration_date (some "2024-01-01Z".toList) =
      some { year := 2024, month := 1, day := 1, hour := 0, minute := 0,
             second := 0, tz := none } ∧
    ({ year := 2024, month := 1, day := 1, hour := 0, minute := 0,
       second := 0, tz := none } : PyDateTime).tz ≠ some 0 := by
  constructor <;> decide

/-- Witness for C7's Z-branch on a full date-time string. -/
theorem c7_normalizer_branches_witness :
    ({ year := 2024, month := 3, day := 5, hour := 10, minute := 30, second := 0,
        tz := some 0 } : PyDateTime).tz = some 0 ∨
      (({ year := 2024, month := 3, day := 5, hour := 10, minute := 30, second := 0,
          tz := some 0 } : PyDateTime).tz = none ∧
        ({ year := 2024, month := 3, day := 5, hour := 10, minute := 30, second := 0,
           tz := some 0 } : PyDateTime).hour = 0 ∧
        ({ year := 2024, month := 3, day := 5, hour := 10, minute := 30, second := 0,
           tz := some 0 } : PyDateTime).minute = 0 ∧
        ({ year := 2024, month := 3, day := 5, hour := 10, minute := 30, second := 0,
           tz := some 0 } : PyDateTime).second = 0) :=
  c7_normalizer_branches.2.1 "2024-03-05T10:30:00Z".toList
    { year := 2024, month := 3, day := 5, hour := 10, minute := 30, second := 0,
      tz := some 0 } (by decide) (by decide)
